import Mathlib

/-!
Shallow embedding of the Meteomatics Home Assistant integration
(`custom_components/meteomatics`), covering `const.py` and `coordinator.py`.

Modelling conventions:
* Timestamps are integer seconds on a linear timeline (Python `datetime`
  arithmetic over a fixed-offset time zone; `astimezone` to the configured
  zone adds the state's `tz_offset`, `date()` is the floor day index).
* A parsed sample's `date` field is `Option Int`: `none` models a missing or
  unparseable date string (the result of `_parse_time` returning `None`).
* JSON/Python values held in a series are `Option JValue`: `none` models
  JSON `null` / Python `None`; numbers are exact rationals.
* Fallible Python coercions (`int(...)`, `float(...)`) return `Option`:
  `none` models a raised `TypeError`/`ValueError`.
* HTTP traffic is abstracted by an oracle `Nat → HttpResult` giving the
  response of the n-th request of a refresh cycle; the JSON body decoding of
  `_parse_response` is elided (the oracle yields the parsed mapping), since
  no claim concerns the raw JSON shape.
-/

/-- A (non-null) JSON value found in a Meteomatics series. -/
inductive JValue where
  | num (q : ℚ)
  | str (s : String)
deriving DecidableEq, Repr

/-- One entry of a `dates` list: `{"date": ..., "value": ...}` after
`_parse_time` has been applied to the date string. -/
structure Sample where
  date : Option Int
  value : Option JValue
deriving DecidableEq, Repr

/-- The result of `_parse_response` / `_fetch_parameters`: parameter name to
its `dates` series (association list; lookup takes the first match). -/
abbrev Parsed := List (String × List Sample)

/-- `parsed.get(parameter, {}).get("dates", [])`. -/
def lookupDates (parsed : Parsed) (parameter : String) : List Sample :=
  match parsed.find? (fun e => e.1 == parameter) with
  | some e => e.2
  | none => []

/-- Python truthiness of a value of type `JValue`. -/
def pyTruthy : JValue → Bool
  | .num q => q != 0
  | .str s => s != ""

/-- Python `x or 0` for an optional value. -/
def pyOrZero : Option JValue → JValue
  | none => .num 0
  | some v => if pyTruthy v then v else .num 0

/-- The list of decimal digits as a number; `none` on a non-digit.
(`[]` gives `some 0`; callers require nonemptiness separately.) -/
def digitsVal (cs : List Char) : Option Nat :=
  cs.foldl
    (fun acc c =>
      match acc with
      | none => none
      | some n => if c.isDigit then some (n * 10 + (c.toNat - 48)) else none)
    (some 0)

/-- Split an optional leading sign: `(isNegative, remaining characters)`. -/
def stripSign : List Char → Bool × List Char
  | '-' :: rest => (true, rest)
  | '+' :: rest => (false, rest)
  | cs => (false, cs)

/-- ASCII whitespace, as stripped by Python's numeric constructors. -/
def isSpaceChar (c : Char) : Bool :=
  c = ' ' || c = '\t' || c = '\n' || c = '\r'

/-- Strip leading and trailing whitespace from a character list. -/
def stripSpaces (cs : List Char) : List Char :=
  ((cs.dropWhile isSpaceChar).reverse.dropWhile isSpaceChar).reverse

/-- Python `int(s)` on a string: optional sign, then decimal digits. -/
def parseIntString (s : String) : Option Int :=
  let cs := stripSpaces s.toList
  let signed := stripSign cs
  if signed.2.isEmpty then none
  else
    match digitsVal signed.2 with
    | some n => some (if signed.1 then -(n : Int) else (n : Int))
    | none => none

/-- Python `float(s)` on a string: optional sign, digits, optional single
decimal point with digits (scientific notation is not modelled; the claims
only distinguish numeric from non-numeric strings). -/
def parseDecimalString (s : String) : Option ℚ :=
  let cs := stripSpaces s.toList
  let signed := stripSign cs
  let ip := signed.2.takeWhile (·.isDigit)
  let rest := signed.2.dropWhile (·.isDigit)
  match rest with
  | [] =>
    if ip.isEmpty then none
    else (digitsVal ip).map (fun n => if signed.1 then -(n : ℚ) else (n : ℚ))
  | '.' :: frac =>
    if frac.all (·.isDigit) && !(ip.isEmpty && frac.isEmpty) then
      match digitsVal ip, digitsVal frac with
      | some a, some b =>
        let q : ℚ := (a : ℚ) + (b : ℚ) / ((10 : ℚ) ^ frac.length)
        some (if signed.1 then -q else q)
      | _, _ => none
    else none
  | _ => none

/-- Truncation of a rational toward zero, as Python `int(float)`. -/
def ratTruncToInt (q : ℚ) : Int := Int.tdiv q.num (q.den : Int)

/-- Python `int(v)` on a series value; `none` models a raised
`TypeError`/`ValueError`. -/
def pyToInt : JValue → Option Int
  | .num q => some (ratTruncToInt q)
  | .str s => parseIntString s

/-- Python `float(value)` on an optional series value; `none` models a raised
`TypeError` (for `None`) or `ValueError` (for a non-numeric string). -/
def pyToFloat : Option JValue → Option ℚ
  | none => none
  | some (.num q) => some q
  | some (.str s) => parseDecimalString s

/-! ## Constants (`const.py`) -/

def HOURLY_HOURS : Nat := 24
def DAILY_DAYS : Nat := 9
def MAX_PARAMETERS_PER_REQUEST : Nat := 10

def HOURLY_PARAMETERS : List String :=
  ["t_2m:C", "msl_pressure:hPa", "wind_speed_10m:ms", "wind_dir_10m:d",
   "wind_gusts_10m_1h:ms", "uv:idx", "weather_symbol_1h:idx", "precip_1h:mm",
   "precip_24h:mm"]

def DAILY_PARAMETERS : List String :=
  ["t_max_2m_24h:C", "t_min_2m_24h:C", "wind_gusts_10m_24h:ms", "sunrise:sql",
   "sunset:sql", "wind_speed_10m:ms", "wind_dir_10m:d", "uv:idx",
   "precip_24h:mm", "weather_symbol_24h:idx"]

def BASIC_DAILY_FETCH_HOURS : List Nat := [3, 9, 15, 21]

/-- `_BASE_WEATHER_SYMBOL_MAP` as an association list; the `dict.fromkeys`
groups of `const.py` are expanded entry by entry. -/
def baseSymbolPairs : List (Int × String) :=
  [(0, "sunny"), (1, "sunny"),
   (2, "partlycloudy"),
   (3, "cloudy"), (4, "cloudy"),
   (5, "fog"),
   (6, "exceptional"), (7, "exceptional"), (8, "exceptional"), (9, "exceptional"),
   (10, "fog"), (11, "fog"), (12, "fog"),
   (13, "lightning"),
   (14, "partlycloudy"), (15, "partlycloudy"), (16, "partlycloudy"),
   (17, "partlycloudy"), (18, "partlycloudy"), (19, "partlycloudy"),
   (20, "rainy"), (21, "rainy"),
   (22, "snowy"),
   (23, "snowy-rainy"),
   (24, "rainy"), (25, "rainy"),
   (26, "snowy"),
   (27, "hail"), (28, "hail"),
   (29, "lightning"),
   (30, "windy"), (31, "windy"), (32, "windy"), (33, "windy"), (34, "windy"),
   (35, "windy"), (36, "windy"),
   (37, "snowy"), (38, "snowy"), (39, "snowy"),
   (40, "fog"), (41, "fog"), (42, "fog"), (43, "fog"), (44, "fog"), (45, "fog"),
   (46, "fog"), (47, "fog"), (48, "fog"), (49, "fog"),
   (50, "rainy"), (51, "rainy"), (52, "rainy"), (53, "rainy"), (54, "rainy"),
   (55, "rainy"),
   (56, "snowy-rainy"), (57, "snowy-rainy"), (58, "snowy-rainy"), (59, "snowy-rainy"),
   (60, "rainy"), (61, "rainy"), (62, "rainy"), (63, "rainy"),
   (64, "pouring"), (65, "pouring"),
   (66, "snowy-rainy"), (67, "snowy-rainy"), (68, "snowy-rainy"), (69, "snowy-rainy"),
   (70, "snowy"), (71, "snowy"), (72, "snowy"), (73, "snowy"), (74, "snowy"),
   (75, "snowy"), (76, "snowy"), (77, "snowy"), (78, "snowy"),
   (79, "snowy-rainy"),
   (80, "rainy"), (81, "rainy"),
   (82, "pouring"),
   (83, "snowy-rainy"), (84, "snowy-rainy"),
   (85, "snowy"), (86, "snowy"),
   (87, "hail"), (88, "hail"), (89, "hail"), (90, "hail"),
   (91, "rainy"),
   (92, "pouring"),
   (93, "snowy-rainy"), (94, "snowy-rainy"),
   (95, "lightning-rainy"), (96, "lightning-rainy"), (97, "lightning-rainy"),
   (98, "lightning-rainy"), (99, "lightning-rainy")]

/-- `_BASE_WEATHER_SYMBOL_MAP.get(code)`. -/
def baseWeatherSymbolMap (code : Int) : Option String :=
  (baseSymbolPairs.find? (fun p => p.1 == code)).map (fun p => p.2)

/-- `_NIGHT_CONDITION_MAP.get(condition, condition)`. -/
def nightCondition (condition : String) : String :=
  if condition = "sunny" then "clear-night" else condition

/-- `WEATHER_SYMBOL_MAP.get(code)`: the base map merged with the `+100` night
variants. The base keys all lie in `0..99`, so the two key sets of the Python
dict merge are disjoint and checking the night table first is equivalent. -/
def WEATHER_SYMBOL_MAP (code : Int) : Option String :=
  match baseWeatherSymbolMap (code - 100) with
  | some condition => some (nightCondition condition)
  | none => baseWeatherSymbolMap code

/-! ## `_chunk_parameters` (`coordinator.py`) -/

/-- The loop of `_chunk_parameters`: `chunk` is the group being accumulated,
a full group is emitted when it reaches `MAX_PARAMETERS_PER_REQUEST`, and a
nonempty leftover group is emitted at the end. -/
def chunkAux : List String → List String → List (List String)
  | chunk, [] => if chunk.isEmpty then [] else [chunk]
  | chunk, p :: rest =>
    if (chunk ++ [p]).length = MAX_PARAMETERS_PER_REQUEST then
      (chunk ++ [p]) :: chunkAux [] rest
    else
      chunkAux (chunk ++ [p]) rest

/-- `_chunk_parameters(parameters)`. -/
def chunkParameters (parameters : List String) : List (List String) :=
  chunkAux [] parameters

theorem chunkAux_flatten : ∀ (l chunk : List String),
    (chunkAux chunk l).flatten = chunk ++ l := by
  intro l
  induction l with
  | nil =>
    intro chunk
    by_cases h : chunk.isEmpty
    · simp [chunkAux, h, List.isEmpty_iff.mp h]
    · simp [chunkAux, h]
  | cons p rest ih =>
    intro chunk
    by_cases h : chunk.length + 1 = MAX_PARAMETERS_PER_REQUEST <;>
      simp [chunkAux, h, ih]

theorem chunkAux_length_le : ∀ (l chunk : List String),
    chunk.length < MAX_PARAMETERS_PER_REQUEST →
    ∀ g ∈ chunkAux chunk l, g.length ≤ MAX_PARAMETERS_PER_REQUEST := by
  intro l
  induction l with
  | nil =>
    intro chunk hlt g hg
    by_cases h : chunk.isEmpty <;> simp [chunkAux, h] at hg
    subst hg; omega
  | cons p rest ih =>
    intro chunk hlt g hg
    by_cases h : (chunk ++ [p]).length = MAX_PARAMETERS_PER_REQUEST
    · simp only [chunkAux, if_pos h] at hg
      rcases List.mem_cons.mp hg with hg | hg
      · subst hg; omega
      · exact ih [] (by simp [MAX_PARAMETERS_PER_REQUEST]) g hg
    · simp only [chunkAux, if_neg h] at hg
      have hlen : (chunk ++ [p]).length < MAX_PARAMETERS_PER_REQUEST := by
        simp at h ⊢; omega
      exact ih (chunk ++ [p]) hlen g hg

theorem chunkAux_ne_nil : ∀ (l chunk : List String),
    ∀ g ∈ chunkAux chunk l, g ≠ [] := by
  intro l
  induction l with
  | nil =>
    intro chunk g hg
    by_cases h : chunk.isEmpty <;> simp [chunkAux, h] at hg
    subst hg
    simpa [List.isEmpty_iff] using h
  | cons p rest ih =>
    intro chunk g hg
    by_cases h : (chunk ++ [p]).length = MAX_PARAMETERS_PER_REQUEST
    · simp only [chunkAux, if_pos h] at hg
      rcases List.mem_cons.mp hg with hg | hg
      · subst hg; simp
      · exact ih [] g hg
    · simp only [chunkAux, if_neg h] at hg
      exact ih (chunk ++ [p]) g hg

theorem chunkAux_dropLast : ∀ (l chunk : List String),
    ∀ g ∈ (chunkAux chunk l).dropLast, g.length = MAX_PARAMETERS_PER_REQUEST := by
  intro l
  induction l with
  | nil =>
    intro chunk g hg
    by_cases h : chunk.isEmpty <;> simp [chunkAux, h] at hg
  | cons p rest ih =>
    intro chunk g hg
    by_cases h : (chunk ++ [p]).length = MAX_PARAMETERS_PER_REQUEST
    · simp only [chunkAux, if_pos h] at hg
      match hrest : chunkAux [] rest with
      | [] => rw [hrest] at hg; simp at hg
      | c :: cs =>
        rw [hrest] at hg
        have e : ((chunk ++ [p]) :: c :: cs).dropLast
            = (chunk ++ [p]) :: (c :: cs).dropLast := rfl
        rw [e] at hg
        rcases List.mem_cons.mp hg with hg' | hg'
        · subst hg'; exact h
        · exact ih [] g (by rw [hrest]; exact hg')
    · simp only [chunkAux, if_neg h] at hg
      exact ih (chunk ++ [p]) g hg

/-- C4: `_chunk_parameters` partitions the parameter list: the concatenation
of the emitted groups is the original list in order, every group is nonempty
with at most `MAX_PARAMETERS_PER_REQUEST` (10) elements, every group except
possibly the last has exactly 10 elements, and an empty input yields no
groups. -/
theorem chunk_parameters_partition (parameters : List String) :
    (chunkParameters parameters).flatten = parameters ∧
    (∀ g ∈ chunkParameters parameters,
        g.length ≤ MAX_PARAMETERS_PER_REQUEST ∧ g ≠ []) ∧
    (∀ g ∈ (chunkParameters parameters).dropLast,
        g.length = MAX_PARAMETERS_PER_REQUEST) ∧
    (parameters = [] → chunkParameters parameters = []) := by
  refine ⟨?_, ?_, ?_, ?_⟩
  · simpa using chunkAux_flatten parameters []
  · intro g hg
    exact ⟨chunkAux_length_le parameters [] (by simp [MAX_PARAMETERS_PER_REQUEST]) g hg,
           chunkAux_ne_nil parameters [] g hg⟩
  · exact chunkAux_dropLast parameters []
  · intro h; subst h; rfl

theorem chunk_parameters_partition_witness :
    chunkParameters [] = [] ∧
    (chunkParameters HOURLY_PARAMETERS).flatten = HOURLY_PARAMETERS ∧
    ∀ g ∈ chunkParameters HOURLY_PARAMETERS,
        g.length ≤ MAX_PARAMETERS_PER_REQUEST ∧ g ≠ [] :=
  ⟨(chunk_parameters_partition []).2.2.2 rfl,
   (chunk_parameters_partition HOURLY_PARAMETERS).1,
   (chunk_parameters_partition HOURLY_PARAMETERS).2.1⟩

theorem baseSymbolPairs_bounds : ∀ p ∈ baseSymbolPairs, 0 ≤ p.1 ∧ p.1 < 100 := by
  decide

theorem baseWeatherSymbolMap_out_of_range (code : Int)
    (h : code < 0 ∨ 100 ≤ code) : baseWeatherSymbolMap code = none := by
  unfold baseWeatherSymbolMap
  rw [List.find?_eq_none.mpr]
  · rfl
  · intro p hp
    have hb := baseSymbolPairs_bounds p hp
    simp only [beq_iff_eq]
    omega

/-- C5: every base-table code `c < 100` has its night variant `c + 100` in the
full map, mapped to the same condition except that "sunny" (codes 0 and 1)
becomes "clear-night" (codes 100 and 101); every code `0..99` is present in
the base table, and codes outside `0..199` map to `none`. -/
theorem weather_symbol_night_variants :
    (∀ c : Nat, c < 100 →
        WEATHER_SYMBOL_MAP ((c : Int) + 100) =
          (baseWeatherSymbolMap (c : Int)).map
            (fun condition =>
              if condition = "sunny" then "clear-night" else condition)) ∧
    (∀ c : Nat, c < 100 → (baseWeatherSymbolMap (c : Int)).isSome = true) ∧
    WEATHER_SYMBOL_MAP 100 = some "clear-night" ∧
    WEATHER_SYMBOL_MAP 101 = some "clear-night" ∧
    (∀ code : Int, code < 0 ∨ 200 ≤ code → WEATHER_SYMBOL_MAP code = none) := by
  refine ⟨by decide, by decide, by decide, by decide, ?_⟩
  intro code h
  unfold WEATHER_SYMBOL_MAP
  rw [baseWeatherSymbolMap_out_of_range (code - 100) (by omega),
      baseWeatherSymbolMap_out_of_range code (by omega)]

theorem weather_symbol_night_variants_witness :
    WEATHER_SYMBOL_MAP (((1 : Nat) : Int) + 100) =
      (baseWeatherSymbolMap ((1 : Nat) : Int)).map
        (fun condition =>
          if condition = "sunny" then "clear-night" else condition) ∧
    WEATHER_SYMBOL_MAP 250 = none :=
  ⟨weather_symbol_night_variants.1 1 (by decide),
   weather_symbol_night_variants.2.2.2.2 250 (Or.inr (by decide))⟩

/-! ## Coordinator state and derivation engine (`coordinator.py`) -/

/-- `PLAN_TYPE_BASIC` / `PLAN_TYPE_PAID_TRIAL` (collected by the config flow). -/
inductive PlanTier where
  | basic
  | paidTrial
deriving DecidableEq, Repr

/-- One entry of the daily forecast list built by `_build_daily_forecast`. -/
structure DailyEntry where
  datetime : Int
  temperature : Option JValue
  templow : Option JValue
  condition : Option String
  precipitation : Option JValue
  wind_speed : Option JValue
  wind_bearing : Option JValue
  wind_gust : Option JValue
  pressure : Option JValue
  uv_index : Option JValue
  sunrise : Option JValue
  sunset : Option JValue
deriving DecidableEq, Repr

/-- The snapshot built by `_build_current`. -/
structure CurrentSnapshot where
  temperature : Option JValue
  pressure : Option JValue
  wind_speed : Option JValue
  wind_bearing : Option JValue
  condition : Option String
  wind_gust : Option JValue
  uv_index : Option JValue
deriving DecidableEq, Repr

/-- One entry of the hourly forecast list built by `_build_hourly_forecast`. -/
structure HourlyEntry where
  datetime : Int
  temperature : Option JValue
  condition : Option String
  precipitation : Option JValue
  pressure : Option JValue
  wind_speed : Option JValue
  wind_bearing : Option JValue
  wind_gust : Option JValue
  uv_index : Option JValue
  precipitation_24h : Option JValue
deriving DecidableEq, Repr

/-- The mutable fields of `MeteomaticsDataUpdateCoordinator` that the claims
concern. `tz_offset` models `self._time_zone` as a fixed UTC offset in
seconds; `plan_type` is modelled from the spec (this source variant stores
the tier only in the config entry); latitude/longitude/update-interval only
feed the request URL and scheduler, which are not modelled. -/
structure CoordState where
  username : String
  password : String
  tz_offset : Int
  plan_type : PlanTier
  rate_limit_reset : Option Int
  daily_data : List DailyEntry
  next_daily_fetch : Option Int
  hourly_symbol_entries : List (Int × Option String)
  latest_hourly_parsed : Parsed
  daily_fetch_hours : Option (List Nat)
deriving DecidableEq, Repr

/-- `dt.astimezone(self._time_zone).date()` as a day index. -/
def localDay (off t : Int) : Int := (t + off).fdiv 86400

/-- `reference.replace(hour=h, minute=0, second=0, microsecond=0)` on the
local timeline. -/
def replaceHour (t : Int) (h : Nat) : Int := t - t % 86400 + (h : Int) * 3600

/-- `update_credentials(username, password)`, returning the new state and the
changed flag. -/
def update_credentials (st : CoordState) (username password : String) :
    CoordState × Bool :=
  if username = st.username ∧ password = st.password then (st, false)
  else
    ({st with username := username, password := password,
              rate_limit_reset := none}, true)

/-- Modelled from the spec: `updatePlanType(tier) -> changed: bool` is part of
the coordinator's interface (spec section 6) but this source variant's
coordinator has no such method (the config flow only stores the tier in the
config entry). Per spec section 4.6, changing the tier resets the daily cache
and scheduling state and clears the rate-limit cool-down; the Basic tier uses
the fixed daily fetch hours, PaidTrial always fetches daily data fresh. -/
def update_plan_type (st : CoordState) (tier : PlanTier) : CoordState × Bool :=
  if tier = st.plan_type then (st, false)
  else
    ({st with plan_type := tier,
              daily_data := [], next_daily_fetch := none,
              rate_limit_reset := none,
              daily_fetch_hours :=
                match tier with
                | .basic => some BASIC_DAILY_FETCH_HOURS
                | .paidTrial => none}, true)

/-- `_value_at(parsed, parameter, target)`: the value of the first sample at
exactly the target timestamp (`none` both for "no sample" and a null value,
as in Python). -/
def value_at (parsed : Parsed) (parameter : String) (target : Int) :
    Option JValue :=
  match (lookupDates parsed parameter).find? (fun item => item.date == some target) with
  | some item => item.value
  | none => none

/-- Loop of `_hourly_value_near`: nearest sample by absolute distance, the
first encountered winning ties; the best value may itself be null. -/
def hourlyNearAux (target : Int) :
    List Sample → Option JValue → Option Nat → Option JValue
  | [], best, _ => best
  | item :: rest, best, bestDist =>
    match item.date with
    | none => hourlyNearAux target rest best bestDist
    | some dt =>
      let d := (dt - target).natAbs
      match bestDist with
      | none => hourlyNearAux target rest item.value (some d)
      | some bd =>
        if d < bd then hourlyNearAux target rest item.value (some d)
        else hourlyNearAux target rest best bestDist

/-- `_hourly_value_near(parameter, target)` over the retained hourly parse. -/
def hourly_value_near (st : CoordState) (parameter : String) (target : Int) :
    Option JValue :=
  hourlyNearAux target (lookupDates st.latest_hourly_parsed parameter) none none

/-- Loop of `_sum_hourly_values`: running total plus a found flag. -/
def sumAux (start stop : Int) : List Sample → ℚ → Bool → Option ℚ
  | [], total, found => if found then some total else none
  | item :: rest, total, found =>
    match item.date with
    | none => sumAux start stop rest total found
    | some dt =>
      if dt < start ∨ stop ≤ dt then sumAux start stop rest total found
      else
        match pyToFloat item.value with
        | some q => sumAux start stop rest (total + q) true
        | none => sumAux start stop rest total found

/-- `_sum_hourly_values(parameter, start, end)` over the retained hourly
parse; `none` when no sample qualified. -/
def sum_hourly_values (st : CoordState) (parameter : String)
    (start stop : Int) : Option ℚ :=
  sumAux start stop (lookupDates st.latest_hourly_parsed parameter) 0 false

/-- `_extract_hourly_symbol_entries(parsed)`: `(timestamp, mapped condition)`
pairs for the hourly weather-symbol series; a null, unparseable, or unmapped
symbol is kept as a `none` condition. -/
def extract_hourly_symbol_entries (parsed : Parsed) :
    List (Int × Option String) :=
  (lookupDates parsed "weather_symbol_1h:idx").filterMap (fun item =>
    match item.date with
    | none => none
    | some dt =>
      let symbol : Option String :=
        match item.value with
        | none => none
        | some v =>
          match pyToInt v with
          | none => none
          | some i => WEATHER_SYMBOL_MAP i
      some (dt, symbol))

/-- Loop of `_infer_daily_condition`: best in-window non-null symbol by
distance to midday, a strictly smaller distance replacing the current best. -/
def inferAux (dayStart dayEnd midday : Int) :
    List (Int × Option String) → Option String → Option Nat → Option String
  | [], best, _ => best
  | (dt, symbol) :: rest, best, bestDist =>
    match symbol with
    | none => inferAux dayStart dayEnd midday rest best bestDist
    | some s =>
      if dayStart ≤ dt ∧ dt < dayEnd then
        let d := (dt - midday).natAbs
        match bestDist with
        | none => inferAux dayStart dayEnd midday rest (some s) (some d)
        | some bd =>
          if d < bd then inferAux dayStart dayEnd midday rest (some s) (some d)
          else inferAux dayStart dayEnd midday rest best bestDist
      else inferAux dayStart dayEnd midday rest best bestDist

/-- `_infer_daily_condition(day_start)` over the given hourly symbol index. -/
def infer_daily_condition (entries : List (Int × Option String))
    (dayStart : Int) : Option String :=
  if entries.isEmpty then none
  else inferAux dayStart (dayStart + 86400) (dayStart + 43200) entries none none

/-- `grouped.setdefault(local_day, []).append(temperature)`: append to the
group of `day`, creating it at the end on first use (insertion order). -/
def appendGroup : List (Int × List ℚ) → Int → ℚ → List (Int × List ℚ)
  | [], day, q => [(day, [q])]
  | (d, qs) :: rest, day, q =>
    if d = day then (d, qs ++ [q]) :: rest
    else (d, qs) :: appendGroup rest day q

/-- Grouping loop of `_derive_daily_temperatures`. -/
def groupTemps (off : Int) :
    List Sample → List (Int × List ℚ) → List (Int × List ℚ)
  | [], acc => acc
  | item :: rest, acc =>
    match item.date with
    | none => groupTemps off rest acc
    | some dt =>
      match pyToFloat item.value with
      | none => groupTemps off rest acc
      | some q => groupTemps off rest (appendGroup acc (localDay off dt) q)

/-- `_derive_daily_temperatures()`: per local day, `(max, min)` of the hourly
temperatures of the retained parse (wrapped in `some` to keep the source's
`is not None` checks meaningful). -/
def derive_daily_temperatures (st : CoordState) :
    List (Int × (Option ℚ × Option ℚ)) :=
  (groupTemps st.tz_offset
      (lookupDates st.latest_hourly_parsed "t_2m:C") []).filterMap
    (fun g =>
      match g.2 with
      | [] => none
      | q :: qs => some (g.1, (some (qs.foldl max q), some (qs.foldl min q))))

/-- `derived_temperatures.get(local_day)`. -/
def lookupDay (derived : List (Int × (Option ℚ × Option ℚ))) (day : Int) :
    Option (Option ℚ × Option ℚ) :=
  (derived.find? (fun g => g.1 == day)).map (fun g => g.2)

/-- `_daily_condition(parsed, day_start)`: the fetched 24h symbol when it is
non-null, parses as an integer and is mapped; otherwise the condition
inferred from the hourly symbol index. -/
def daily_condition (st : CoordState) (parsed : Parsed) (dayStart : Int) :
    Option String :=
  match value_at parsed "weather_symbol_24h:idx" dayStart with
  | some raw =>
    (match pyToInt raw with
     | some i =>
       match WEATHER_SYMBOL_MAP i with
       | some mapped => some mapped
       | none => infer_daily_condition st.hourly_symbol_entries dayStart
     | none => infer_daily_condition st.hourly_symbol_entries dayStart)
  | none => infer_daily_condition st.hourly_symbol_entries dayStart

/-- The condition computation shared by `_build_current` and
`_build_hourly_forecast`: `WEATHER_SYMBOL_MAP.get(int(value_at(...) or 0))`.
The outer `none` models a raised conversion error. -/
def hourlyCondition (parsed : Parsed) (dt : Int) : Option (Option String) :=
  (pyToInt (pyOrZero (value_at parsed "weather_symbol_1h:idx" dt))).map
    (fun i => WEATHER_SYMBOL_MAP i)

/-- `_build_current(parsed, now)`; `none` models a raised conversion error. -/
def build_current (parsed : Parsed) (now : Int) : Option CurrentSnapshot :=
  let current_time := now - now % 3600
  match hourlyCondition parsed current_time with
  | none => none
  | some condition =>
    some
      { temperature := value_at parsed "t_2m:C" current_time
        pressure := value_at parsed "msl_pressure:hPa" current_time
        wind_speed := value_at parsed "wind_speed_10m:ms" current_time
        wind_bearing := value_at parsed "wind_dir_10m:d" current_time
        condition := condition
        wind_gust := value_at parsed "wind_gusts_10m_1h:ms" current_time
        uv_index := value_at parsed "uv:idx" current_time }

/-- Loop of `_build_hourly_forecast` over the `t_2m:C` series; `none` models
a raised conversion error aborting the build. -/
def buildHourlyAux (parsed : Parsed) : List Sample → Option (List HourlyEntry)
  | [] => some []
  | item :: rest =>
    match item.date with
    | none => buildHourlyAux parsed rest
    | some dt =>
      match hourlyCondition parsed dt with
      | none => none
      | some condition =>
        (buildHourlyAux parsed rest).map
          (fun tail =>
            { datetime := dt
              temperature := item.value
              condition := condition
              precipitation := value_at parsed "precip_1h:mm" dt
              pressure := value_at parsed "msl_pressure:hPa" dt
              wind_speed := value_at parsed "wind_speed_10m:ms" dt
              wind_bearing := value_at parsed "wind_dir_10m:d" dt
              wind_gust := value_at parsed "wind_gusts_10m_1h:ms" dt
              uv_index := value_at parsed "uv:idx" dt
              precipitation_24h := value_at parsed "precip_24h:mm" dt } :: tail)

/-- `_build_hourly_forecast(parsed)`. -/
def build_hourly_forecast (parsed : Parsed) : Option (List HourlyEntry) :=
  buildHourlyAux parsed (lookupDates parsed "t_2m:C")

/-- Body of the `_build_daily_forecast` loop for one `t_max_2m_24h:C` item
with parsed timestamp `dt` (all parsed timestamps are absolute in this model,
so the tzinfo-is-None branch does not arise). -/
def buildDailyEntry (st : CoordState) (parsed : Parsed)
    (derived : List (Int × (Option ℚ × Option ℚ))) (item : Sample)
    (dt : Int) : DailyEntry :=
  let local_day := localDay st.tz_offset dt
  let temperatures := lookupDay derived local_day
  let condition := daily_condition st parsed dt
  let midday := dt + 43200
  let precipitation :=
    match value_at parsed "precip_24h:mm" dt with
    | some v => some v
    | none => (sum_hourly_values st "precip_1h:mm" dt (dt + 86400)).map JValue.num
  let wind_speed :=
    match value_at parsed "wind_speed_10m:ms" dt with
    | some v => some v
    | none => hourly_value_near st "wind_speed_10m:ms" midday
  let wind_bearing :=
    match value_at parsed "wind_dir_10m:d" dt with
    | some v => some v
    | none => hourly_value_near st "wind_dir_10m:d" midday
  let pressure :=
    match value_at parsed "msl_pressure:hPa" dt with
    | some v => some v
    | none => hourly_value_near st "msl_pressure:hPa" midday
  let uv_index :=
    match value_at parsed "uv:idx" dt with
    | some v => some v
    | none => hourly_value_near st "uv:idx" midday
  { datetime := dt
    temperature :=
      match temperatures with
      | some (some high, _) => some (.num high)
      | _ => item.value
    templow :=
      match temperatures with
      | some (_, some low) => some (.num low)
      | _ => value_at parsed "t_min_2m_24h:C" dt
    condition := condition
    precipitation := precipitation
    wind_speed := wind_speed
    wind_bearing := wind_bearing
    wind_gust := value_at parsed "wind_gusts_10m_24h:ms" dt
    pressure := pressure
    uv_index := uv_index
    sunrise := value_at parsed "sunrise:sql" dt
    sunset := value_at parsed "sunset:sql" dt }

/-- `_build_daily_forecast(parsed)`. -/
def build_daily_forecast (st : CoordState) (parsed : Parsed) :
    List DailyEntry :=
  let derived := derive_daily_temperatures st
  (lookupDates parsed "t_max_2m_24h:C").filterMap (fun item =>
    item.date.map (fun dt => buildDailyEntry st parsed derived item dt))

/-- `_update_cached_daily_conditions()`: the cached daily entries with the
condition re-inferred from the hourly symbol index and high/low replaced by
the hourly-derived values when available (in the model the entry `datetime`
is always a datetime, so the `isinstance` guard always passes). -/
def update_cached_daily_conditions (st : CoordState) : List DailyEntry :=
  let derived := derive_daily_temperatures st
  st.daily_data.map (fun entry =>
    let local_day := localDay st.tz_offset entry.datetime
    let temperatures := lookupDay derived local_day
    let entry1 :=
      {entry with
        condition := infer_daily_condition st.hourly_symbol_entries entry.datetime}
    match temperatures with
    | none => entry1
    | some (high, low) =>
      let entry2 :=
        match high with
        | some h => {entry1 with temperature := some (.num h)}
        | none => entry1
      match low with
      | some l => {entry2 with templow := some (.num l)}
      | none => entry2)

/-! ## Fetch coordinator (`_async_update_data` and helpers) -/

/-- `_calculate_next_daily_fetch(reference)`: the first sorted configured
hour whose time today is strictly after the reference, else the smallest
hour of the next day (`hours[0]`; the configured hours are never empty). -/
def calculate_next_daily_fetch (hours0 : List Nat) (reference : Int) : Int :=
  let hours := List.insertionSort (· ≤ ·) hours0
  match hours.find? (fun h => decide (reference < replaceHour reference h)) with
  | some h => replaceHour reference h
  | none => replaceHour (reference + 86400) (hours.headD 0)

/-- The outcome of one HTTP request, as seen after `response.json()`; the
body decoding of `_parse_response` is elided (`ok` carries the parsed
mapping). `otherStatus` is a non-2xx, non-429 status (raised by
`raise_for_status`), `netError` a client/timeout failure. -/
inductive HttpResult where
  | ok (body : Parsed)
  | status429
  | otherStatus
  | netError
deriving DecidableEq, Repr

/-- How a fetch leg failed. `rateLimited` is the `UpdateFailed` raised by
`_handle_rate_limit`; `commError` covers `aiohttp.ClientError` and timeouts;
`internalError` is an uncaught conversion error from the build step. -/
inductive FetchErr where
  | rateLimited
  | commError
  | internalError
deriving DecidableEq, Repr

/-- The outcome of one `_async_update_data` cycle. `failedRateLimitWait` is
the fast-fail raised while the cool-down is still in the future. -/
inductive Outcome where
  | success (current : CurrentSnapshot) (hourly : List HourlyEntry)
            (daily : List DailyEntry)
  | failedRateLimitWait
  | failedRateLimited
  | failedComm
  | failedInternal
deriving DecidableEq, Repr

/-- `_fetch_parameters`: one request per chunk, merging parsed results
(later responses override, hence the new body is prepended for the
first-match lookup). On HTTP 429 `_handle_rate_limit` sets the cool-down to
one hour from now and raises. The `Nat` component counts issued requests. -/
def fetchParameters (oracle : Nat → HttpResult) (nowUtc : Int) :
    CoordState → Nat → List (List String) → Parsed →
    Except (CoordState × FetchErr × Nat) (CoordState × Parsed × Nat)
  | st, k, [], acc => .ok (st, acc, k)
  | st, k, _chunk :: rest, acc =>
    match oracle k with
    | .ok body => fetchParameters oracle nowUtc st (k + 1) rest (body ++ acc)
    | .status429 =>
      .error ({st with rate_limit_reset := some (nowUtc + 3600)},
              .rateLimited, k + 1)
    | .otherStatus => .error (st, .commError, k + 1)
    | .netError => .error (st, .commError, k + 1)

/-- `_fetch_hourly`: fetch the hourly chunk set, retain the parse, build the
current snapshot and hourly forecast, rebuild the symbol index, and refresh
cached daily conditions when a daily cache exists. -/
def fetchHourly (oracle : Nat → HttpResult) (nowUtc nowHour : Int)
    (st : CoordState) (k : Nat) :
    Except (CoordState × FetchErr × Nat)
      (CoordState × CurrentSnapshot × List HourlyEntry × Nat) :=
  match fetchParameters oracle nowUtc st k (chunkParameters HOURLY_PARAMETERS) [] with
  | .error e => .error e
  | .ok (st1, parsed, k1) =>
    let st2 := {st1 with latest_hourly_parsed := parsed}
    match build_current parsed nowHour, build_hourly_forecast parsed with
    | some current, some hourly =>
      let st3 :=
        {st2 with hourly_symbol_entries := extract_hourly_symbol_entries parsed}
      let st4 :=
        if st3.daily_data.isEmpty then st3
        else {st3 with daily_data := update_cached_daily_conditions st3}
      .ok (st4, current, hourly, k1)
    | _, _ => .error (st2, .internalError, k1)

/-- `_fetch_daily`: fetch the daily chunk set and build the daily forecast. -/
def fetchDaily (oracle : Nat → HttpResult) (nowUtc : Int)
    (st : CoordState) (k : Nat) :
    Except (CoordState × FetchErr × Nat)
      (CoordState × List DailyEntry × Nat) :=
  match fetchParameters oracle nowUtc st k (chunkParameters DAILY_PARAMETERS) [] with
  | .error e => .error e
  | .ok (st1, parsed, k1) => .ok (st1, build_daily_forecast st1 parsed, k1)

/-- `_ensure_daily_data(now_local)`: with no configured fetch hours always
fetch; otherwise fetch when no cache exists, no next-fetch time is recorded,
or the local time has reached it, and reuse the cache (re-deriving conditions
and temperatures from the latest hourly series) otherwise. -/
def ensureDaily (oracle : Nat → HttpResult) (nowUtc nowLocal : Int)
    (st : CoordState) (k : Nat) :
    Except (CoordState × FetchErr × Nat)
      (CoordState × List DailyEntry × Nat) :=
  match st.daily_fetch_hours with
  | none =>
    match fetchDaily oracle nowUtc st k with
    | .error e => .error e
    | .ok (st1, daily, k1) =>
      .ok ({st1 with daily_data := daily, next_daily_fetch := none}, daily, k1)
  | some hours =>
    let stale :=
      st.daily_data.isEmpty ||
        match st.next_daily_fetch with
        | none => true
        | some n => decide (n ≤ nowLocal)
    if stale then
      match fetchDaily oracle nowUtc st k with
      | .error e => .error e
      | .ok (st1, daily, k1) =>
        .ok
          ({st1 with
              daily_data := daily
              next_daily_fetch :=
                some (calculate_next_daily_fetch hours nowLocal)},
           daily, k1)
    else
      let updated := update_cached_daily_conditions st
      .ok ({st with daily_data := updated}, updated, k)

/-- How a leg failure surfaces from `_async_update_data`. -/
def errOutcome : FetchErr → Outcome
  | .rateLimited => .failedRateLimited
  | .commError => .failedComm
  | .internalError => .failedInternal

/-- The body of `_async_update_data` past the cool-down guard: hourly leg,
then the daily leg, then clear the rate-limit state on full success. -/
def runUpdateBody (st : CoordState) (nowUtc nowLocal : Int)
    (oracle : Nat → HttpResult) : CoordState × Outcome × Nat :=
  let nowHour := nowLocal - nowLocal % 3600
  match fetchHourly oracle nowUtc nowHour st 0 with
  | .error (st1, e, k) => (st1, errOutcome e, k)
  | .ok (st1, _current, _hourly, k) =>
    match ensureDaily oracle nowUtc nowLocal st1 k with
    | .error (st2, e, k2) => (st2, errOutcome e, k2)
    | .ok (st2, daily, k2) =>
      ({st2 with rate_limit_reset := none},
       .success _current _hourly daily, k2)

/-- `_async_update_data()`: fail fast while the cool-down is set and still in
the future (issuing zero requests), otherwise run the fetch cycle. The `Nat`
is the number of HTTP requests issued. -/
def runUpdate (st : CoordState) (nowUtc nowLocal : Int)
    (oracle : Nat → HttpResult) : CoordState × Outcome × Nat :=
  match st.rate_limit_reset with
  | some r =>
    if nowUtc < r then (st, .failedRateLimitWait, 0)
    else runUpdateBody st nowUtc nowLocal oracle
  | none => runUpdateBody st nowUtc nowLocal oracle

/-! ## Spec-side derivation contracts (claims C6, C7) -/

/-- Spec wording for `sumOverWindow`: the numeric values of samples whose
timestamp lies in `[start, stop)`. -/
def windowValues (samples : List Sample) (start stop : Int) : List ℚ :=
  samples.filterMap (fun item =>
    match item.date with
    | some dt => if start ≤ dt ∧ dt < stop then pyToFloat item.value else none
    | none => none)

/-- Spec wording for `sumOverWindow(series, start, end)`: `none` when no
sample qualifies, else the sum of the qualifying numeric values. -/
def sumOverWindowSpec (samples : List Sample) (start stop : Int) : Option ℚ :=
  let qs := windowValues samples start stop
  if qs.isEmpty then none else some qs.sum

/-- Spec wording for the samples considered by `inferDailyCondition`:
non-null condition samples with timestamp in `[dayStart, dayEnd)`. -/
def qualifyingSymbols (dayStart dayEnd : Int)
    (entries : List (Int × Option String)) : List (Int × String) :=
  entries.filterMap (fun e =>
    match e.2 with
    | some s => if dayStart ≤ e.1 ∧ e.1 < dayEnd then some (e.1, s) else none
    | none => none)

/-- The first sample attaining the minimum absolute distance to `midday`
(a tie keeps the earlier sample). -/
def firstClosest (midday : Int) : List (Int × String) → Option (Int × String)
  | [] => none
  | x :: xs =>
    match firstClosest midday xs with
    | none => some x
    | some y =>
      if (x.1 - midday).natAbs ≤ (y.1 - midday).natAbs then some x else some y

/-- Spec wording for `inferDailyCondition(hourlySymbolIndex, dayStart)`. -/
def inferDailyConditionSpec (entries : List (Int × Option String))
    (dayStart : Int) : Option String :=
  (firstClosest (dayStart + 43200)
      (qualifyingSymbols dayStart (dayStart + 86400) entries)).map
    (fun e => e.2)

theorem sumAux_eq : ∀ (l : List Sample) (start stop : Int) (t : ℚ) (f : Bool),
    sumAux start stop l t f =
      (if (windowValues l start stop).isEmpty then (if f then some t else none)
       else some (t + (windowValues l start stop).sum)) := by
  intro l
  induction l with
  | nil => intro start stop t f; simp [sumAux, windowValues]
  | cons item rest ih =>
    intro start stop t f
    cases hd : item.date with
    | none =>
      have hw : windowValues (item :: rest) start stop
          = windowValues rest start stop := by simp [windowValues, hd]
      simp only [sumAux, hd]
      rw [ih, hw]
    | some dt =>
      simp only [sumAux, hd]
      by_cases hout : dt < start ∨ stop ≤ dt
      · have hw : windowValues (item :: rest) start stop
            = windowValues rest start stop := by
          have hnin : ¬(start ≤ dt ∧ dt < stop) := by omega
          simp [windowValues, hd, hnin]
        rw [if_pos hout, ih, hw]
      · rw [if_neg hout]
        have hin : start ≤ dt ∧ dt < stop := by omega
        cases hv : pyToFloat item.value with
        | none =>
          have hw : windowValues (item :: rest) start stop
              = windowValues rest start stop := by
            simp [windowValues, hd, hin, hv]
          rw [ih, hw]
        | some q =>
          have hw : windowValues (item :: rest) start stop
              = q :: windowValues rest start stop := by
            simp [windowValues, hd, hin, hv]
          show sumAux start stop rest (t + q) true = _
          rw [ih, hw]
          cases hrest : windowValues rest start stop with
          | nil => simp
          | cons q0 qs => simp [List.sum_cons, add_assoc]

/-- C7: `_sum_hourly_values` adds exactly the values that parse as numbers
and whose timestamp lies in `[start, stop)`, returning `none` (not zero)
exactly when no sample qualified; concretely, samples `[1.0, 2.0, "bad"]`
inside the window sum to `3.0` and an empty series gives `none`. -/
theorem sum_hourly_values_spec :
    (∀ (st : CoordState) (parameter : String) (start stop : Int),
        sum_hourly_values st parameter start stop =
          sumOverWindowSpec (lookupDates st.latest_hourly_parsed parameter)
            start stop) ∧
    sum_hourly_values
      { username := "", password := "", tz_offset := 0, plan_type := .basic,
        rate_limit_reset := none, daily_data := [], next_daily_fetch := none,
        hourly_symbol_entries := [],
        latest_hourly_parsed :=
          [("precip_1h:mm",
            [{date := some 0, value := some (.num 1)},
             {date := some 3600, value := some (.num 2)},
             {date := some 7200, value := some (.str "bad")}])],
        daily_fetch_hours := some BASIC_DAILY_FETCH_HOURS }
      "precip_1h:mm" 0 86400 = some 3 ∧
    sum_hourly_values
      { username := "", password := "", tz_offset := 0, plan_type := .basic,
        rate_limit_reset := none, daily_data := [], next_daily_fetch := none,
        hourly_symbol_entries := [], latest_hourly_parsed := [],
        daily_fetch_hours := some BASIC_DAILY_FETCH_HOURS }
      "precip_1h:mm" 0 86400 = none := by
  refine ⟨?_, ?_, by decide⟩
  case refine_2 =>
    have h : sum_hourly_values
        { username := "", password := "", tz_offset := 0, plan_type := .basic,
          rate_limit_reset := none, daily_data := [], next_daily_fetch := none,
          hourly_symbol_entries := [],
          latest_hourly_parsed :=
            [("precip_1h:mm",
              [{date := some 0, value := some (.num 1)},
               {date := some 3600, value := some (.num 2)},
               {date := some 7200, value := some (.str "bad")}])],
          daily_fetch_hours := some BASIC_DAILY_FETCH_HOURS }
        "precip_1h:mm" 0 86400 = some ((0 : ℚ) + 1 + 2) := rfl
    rw [h]
    norm_num
  intro st parameter start stop
  unfold sum_hourly_values sumOverWindowSpec
  rw [sumAux_eq]
  cases h : (windowValues (lookupDates st.latest_hourly_parsed parameter)
      start stop).isEmpty <;> simp [h]

theorem inferAux_some : ∀ (entries : List (Int × Option String))
    (dS dE m : Int) (s : String) (d : Nat),
    inferAux dS dE m entries (some s) (some d) =
      (match firstClosest m (qualifyingSymbols dS dE entries) with
       | none => some s
       | some y => if (y.1 - m).natAbs < d then some y.2 else some s) := by
  intro entries
  induction entries with
  | nil => intro dS dE m s d; rfl
  | cons e rest ih =>
    intro dS dE m s d
    obtain ⟨dt, symbol⟩ := e
    cases symbol with
    | none =>
      have hq : qualifyingSymbols dS dE ((dt, none) :: rest)
          = qualifyingSymbols dS dE rest := by simp [qualifyingSymbols]
      show inferAux dS dE m rest (some s) (some d) = _
      rw [ih, hq]
    | some s' =>
      by_cases hin : dS ≤ dt ∧ dt < dE
      · have hq : qualifyingSymbols dS dE ((dt, some s') :: rest)
            = (dt, s') :: qualifyingSymbols dS dE rest := by
          simp [qualifyingSymbols, hin]
        simp only [inferAux, if_pos hin]
        rw [hq]
        by_cases hcmp : (dt - m).natAbs < d
        · rw [if_pos hcmp, ih]
          cases hfc : firstClosest m (qualifyingSymbols dS dE rest) with
          | none => simp [firstClosest, hfc, hcmp]
          | some y =>
            by_cases hy : (dt - m).natAbs ≤ (y.1 - m).natAbs
            · simp only [firstClosest, hfc, if_pos hy]
              have h1 : ¬ (y.1 - m).natAbs < (dt - m).natAbs := by omega
              simp [h1, hcmp]
            · simp only [firstClosest, hfc, if_neg hy]
              have h1 : (y.1 - m).natAbs < (dt - m).natAbs := by omega
              have h2 : (y.1 - m).natAbs < d := by omega
              simp [h1, h2]
        · rw [if_neg hcmp, ih]
          cases hfc : firstClosest m (qualifyingSymbols dS dE rest) with
          | none => simp [firstClosest, hfc, hcmp]
          | some y =>
            by_cases hy : (dt - m).natAbs ≤ (y.1 - m).natAbs
            · simp only [firstClosest, hfc, if_pos hy]
              have h1 : ¬ (y.1 - m).natAbs < d := by omega
              simp [h1, hcmp]
            · simp only [firstClosest, hfc, if_neg hy]
      · have hq : qualifyingSymbols dS dE ((dt, some s') :: rest)
            = qualifyingSymbols dS dE rest := by
          simp [qualifyingSymbols, hin]
        simp only [inferAux, if_neg hin]
        rw [ih, hq]

theorem inferAux_none_eq : ∀ (entries : List (Int × Option String))
    (dS dE m : Int),
    inferAux dS dE m entries none none =
      (firstClosest m (qualifyingSymbols dS dE entries)).map (fun e => e.2) := by
  intro entries
  induction entries with
  | nil => intro dS dE m; rfl
  | cons e rest ih =>
    intro dS dE m
    obtain ⟨dt, symbol⟩ := e
    cases symbol with
    | none =>
      have hq : qualifyingSymbols dS dE ((dt, none) :: rest)
          = qualifyingSymbols dS dE rest := by simp [qualifyingSymbols]
      show inferAux dS dE m rest none none = _
      rw [ih, hq]
    | some s' =>
      by_cases hin : dS ≤ dt ∧ dt < dE
      · have hq : qualifyingSymbols dS dE ((dt, some s') :: rest)
            = (dt, s') :: qualifyingSymbols dS dE rest := by
          simp [qualifyingSymbols, hin]
        simp only [inferAux, if_pos hin]
        rw [inferAux_some, hq]
        cases hfc : firstClosest m (qualifyingSymbols dS dE rest) with
        | none => simp [firstClosest, hfc]
        | some y =>
          by_cases hy : (dt - m).natAbs ≤ (y.1 - m).natAbs
          · simp only [firstClosest, hfc, if_pos hy]
            have h1 : ¬ (y.1 - m).natAbs < (dt - m).natAbs := by omega
            simp [h1]
          · simp only [firstClosest, hfc, if_neg hy]
            have h1 : (y.1 - m).natAbs < (dt - m).natAbs := by omega
            simp [h1]
      · have hq : qualifyingSymbols dS dE ((dt, some s') :: rest)
            = qualifyingSymbols dS dE rest := by
          simp [qualifyingSymbols, hin]
        simp only [inferAux, if_neg hin]
        rw [ih, hq]

/-- C6: `_infer_daily_condition` considers exactly the non-null condition
samples with timestamp in `[dayStart, dayStart + 1 day)` and returns the
condition of the sample closest to `dayStart + 12h` (ties to the first
encountered), `none` when no sample falls in the window; concretely, samples
06:00 → "rainy" and 14:00 → "sunny" for a day starting at 00:00 give
"sunny". -/
theorem infer_daily_condition_spec :
    (∀ (entries : List (Int × Option String)) (dayStart : Int),
        infer_daily_condition entries dayStart =
          inferDailyConditionSpec entries dayStart) ∧
    infer_daily_condition [(21600, some "rainy"), (50400, some "sunny")] 0 =
      some "sunny" := by
  constructor
  · intro entries dayStart
    unfold infer_daily_condition inferDailyConditionSpec
    by_cases h : entries.isEmpty
    · rw [if_pos h, List.isEmpty_iff.mp h]
      rfl
    · rw [if_neg h]
      exact inferAux_none_eq entries dayStart (dayStart + 86400) (dayStart + 43200)
  · decide

theorem hourlyCondition_of_none (parsed : Parsed) (dt : Int)
    (h : value_at parsed "weather_symbol_1h:idx" dt = none) :
    hourlyCondition parsed dt = some (some "sunny") := by
  unfold hourlyCondition
  rw [h]
  rfl

theorem buildHourlyAux_condition : ∀ (items : List Sample) (parsed : Parsed)
    (l : List HourlyEntry),
    buildHourlyAux parsed items = some l →
    ∀ e ∈ l, value_at parsed "weather_symbol_1h:idx" e.datetime = none →
      e.condition = some "sunny" := by
  intro items
  induction items with
  | nil =>
    intro parsed l hl e he
    simp only [buildHourlyAux] at hl
    cases hl
    simp at he
  | cons item rest ih =>
    intro parsed l hl e he hval
    cases hd : item.date with
    | none =>
      rw [show buildHourlyAux parsed (item :: rest)
            = buildHourlyAux parsed rest by rw [buildHourlyAux, hd]] at hl
      exact ih parsed l hl e he hval
    | some dt =>
      cases hc : hourlyCondition parsed dt with
      | none =>
        simp only [buildHourlyAux, hd, hc] at hl
        cases hl
      | some condition =>
        simp only [buildHourlyAux, hd, hc] at hl
        cases htail : buildHourlyAux parsed rest with
        | none => rw [htail] at hl; cases hl
        | some tail =>
          rw [htail] at hl
          simp only [Option.map_some'] at hl
          injection hl with hl2
          subst hl2
          rcases List.mem_cons.mp he with he' | he'
          · subst he'
            have hval' : value_at parsed "weather_symbol_1h:idx" dt = none := hval
            have h2 := hourlyCondition_of_none parsed dt hval'
            rw [hc] at h2
            exact Option.some.inj h2
          · exact ih parsed tail htail e he' hval

/-- C10: when the parsed response has no `weather_symbol_1h:idx` sample at
the target timestamp (or its value is null), the missing value is coerced to
0 before the table lookup, so the condition built by `_build_current` and
`_build_hourly_forecast` is the mapping of code 0, "sunny", not `none`. -/
theorem missing_symbol_condition_sunny :
    (∀ (parsed : Parsed) (now : Int),
        value_at parsed "weather_symbol_1h:idx" (now - now % 3600) = none →
        ∃ current, build_current parsed now = some current ∧
          current.condition = some "sunny") ∧
    (∀ (parsed : Parsed) (l : List HourlyEntry),
        build_hourly_forecast parsed = some l →
        ∀ e ∈ l, value_at parsed "weather_symbol_1h:idx" e.datetime = none →
          e.condition = some "sunny") ∧
    WEATHER_SYMBOL_MAP 0 = some "sunny" := by
  refine ⟨?_, ?_, by decide⟩
  · intro parsed now h
    have hc := hourlyCondition_of_none parsed (now - now % 3600) h
    simp only [build_current, hc]
    exact ⟨_, rfl, rfl⟩
  · intro parsed l hl e he hval
    exact buildHourlyAux_condition (lookupDates parsed "t_2m:C") parsed l hl e he hval

theorem missing_symbol_condition_sunny_witness :
    (∃ current, build_current [] 0 = some current ∧
        current.condition = some "sunny") ∧
    (∀ e ∈ [({ datetime := 0, temperature := some (.num 15),
               condition := some "sunny", precipitation := none,
               pressure := none, wind_speed := none, wind_bearing := none,
               wind_gust := none, uv_index := none,
               precipitation_24h := none } : HourlyEntry)],
        value_at [("t_2m:C", [{date := some 0, value := some (.num 15)}])]
            "weather_symbol_1h:idx" e.datetime = none →
        e.condition = some "sunny") := by
  constructor
  · exact missing_symbol_condition_sunny.1 [] 0 (by decide)
  · exact missing_symbol_condition_sunny.2.1
      [("t_2m:C", [{date := some 0, value := some (.num 15)}])] _ (by decide)

/-- A coordinator state whose retained hourly parse has temperatures 15 and
18 on the first local day (used for claim C1). -/
def cexSt : CoordState :=
  { username := "", password := "", tz_offset := 0, plan_type := .basic,
    rate_limit_reset := none, daily_data := [], next_daily_fetch := none,
    hourly_symbol_entries := [],
    latest_hourly_parsed :=
      [("t_2m:C",
        [{date := some 0, value := some (.num 15)},
         {date := some 3600, value := some (.num 18)}])],
    daily_fetch_hours := some BASIC_DAILY_FETCH_HOURS }

/-- A parsed daily response carrying a fetched daily high of 30 (claim C1). -/
def cexParsed : Parsed :=
  [("t_max_2m_24h:C", [{date := some 0, value := some (.num 30)}])]

/-- A cached daily entry whose condition came from a fetched daily symbol. -/
def cexCachedEntry : DailyEntry :=
  { datetime := 0, temperature := none, templow := none,
    condition := some "cloudy", precipitation := none, wind_speed := none,
    wind_bearing := none, wind_gust := none, pressure := none,
    uv_index := none, sunrise := none, sunset := none }

/-- A coordinator state holding that cached entry, with an hourly symbol
index that infers no condition (claim C1). -/
def cexCachedSt : CoordState :=
  { username := "", password := "", tz_offset := 0, plan_type := .basic,
    rate_limit_reset := none, daily_data := [cexCachedEntry],
    next_daily_fetch := none, hourly_symbol_entries := [],
    latest_hourly_parsed := [], daily_fetch_hours := some BASIC_DAILY_FETCH_HOURS }

/-- C1 counterexample: with a fetched daily high of 30 present in the parsed
daily response and hourly temperatures 15 and 18 on the same local day,
`_build_daily_forecast` emits temperature 18 (the hourly-derived high), not
the fetched 30 — the hourly-derived value takes precedence, contradicting
the claim; and `_update_cached_daily_conditions` replaces a cached fetched
condition "cloudy" with the (here absent) hourly-inferred one. -/
theorem daily_fetched_precedence_counterexample :
    value_at cexParsed "t_max_2m_24h:C" 0 = some (.num 30) ∧
    (build_daily_forecast cexSt cexParsed).map (fun e => e.temperature)
      = [some (.num 18)] ∧
    JValue.num 18 ≠ JValue.num 30 ∧
    cexCachedSt.daily_data.map (fun e => e.condition) = [some "cloudy"] ∧
    (update_cached_daily_conditions cexCachedSt).map (fun e => e.condition)
      = [none] :=
  ⟨by decide, by decide, by decide, by decide, by decide⟩

/-- C1 (amended): for every daily entry built by `_build_daily_forecast`,
the fetched daily value takes precedence over the hourly-derived fallback
for precipitation, wind speed, wind bearing, pressure, UV index and
condition (the derived equivalent is substituted only when the fetched value
is absent); for the high/low temperatures the precedence is reversed — the
hourly-derived day maximum/minimum is used whenever available and the
fetched `t_max`/`t_min` value only when no derived value exists for that
local day — and the cached-daily refresh pass unconditionally replaces each
cached condition with the hourly-inferred one. -/
theorem daily_fetched_precedence (st : CoordState) (parsed : Parsed)
    (item : Sample) (dt : Int) (e : DailyEntry)
    (hmem : item ∈ lookupDates parsed "t_max_2m_24h:C")
    (hdt : item.date = some dt)
    (he : e = buildDailyEntry st parsed (derive_daily_temperatures st) item dt) :
    e ∈ build_daily_forecast st parsed ∧
    (∀ v, value_at parsed "precip_24h:mm" dt = some v →
        e.precipitation = some v) ∧
    (value_at parsed "precip_24h:mm" dt = none →
        e.precipitation =
          (sum_hourly_values st "precip_1h:mm" dt (dt + 86400)).map JValue.num) ∧
    (∀ v, value_at parsed "wind_speed_10m:ms" dt = some v →
        e.wind_speed = some v) ∧
    (value_at parsed "wind_speed_10m:ms" dt = none →
        e.wind_speed = hourly_value_near st "wind_speed_10m:ms" (dt + 43200)) ∧
    (∀ v, value_at parsed "wind_dir_10m:d" dt = some v →
        e.wind_bearing = some v) ∧
    (value_at parsed "wind_dir_10m:d" dt = none →
        e.wind_bearing = hourly_value_near st "wind_dir_10m:d" (dt + 43200)) ∧
    (∀ v, value_at parsed "msl_pressure:hPa" dt = some v →
        e.pressure = some v) ∧
    (value_at parsed "msl_pressure:hPa" dt = none →
        e.pressure = hourly_value_near st "msl_pressure:hPa" (dt + 43200)) ∧
    (∀ v, value_at parsed "uv:idx" dt = some v → e.uv_index = some v) ∧
    (value_at parsed "uv:idx" dt = none →
        e.uv_index = hourly_value_near st "uv:idx" (dt + 43200)) ∧
    (∀ raw i c, value_at parsed "weather_symbol_24h:idx" dt = some raw →
        pyToInt raw = some i → WEATHER_SYMBOL_MAP i = some c →
        e.condition = some c) ∧
    (value_at parsed "weather_symbol_24h:idx" dt = none →
        e.condition = infer_daily_condition st.hourly_symbol_entries dt) ∧
    (∀ high low,
        lookupDay (derive_daily_temperatures st) (localDay st.tz_offset dt)
          = some (some high, low) →
        e.temperature = some (.num high)) ∧
    (lookupDay (derive_daily_temperatures st) (localDay st.tz_offset dt)
        = none → e.temperature = item.value) ∧
    (∀ high low,
        lookupDay (derive_daily_temperatures st) (localDay st.tz_offset dt)
          = some (high, some low) →
        e.templow = some (.num low)) ∧
    (lookupDay (derive_daily_temperatures st) (localDay st.tz_offset dt)
        = none → e.templow = value_at parsed "t_min_2m_24h:C" dt) ∧
    (∀ e2 ∈ update_cached_daily_conditions st,
        e2.condition =
          infer_daily_condition st.hourly_symbol_entries e2.datetime) := by
  subst he
  refine ⟨?_, ?_, ?_, ?_, ?_, ?_, ?_, ?_, ?_, ?_, ?_, ?_, ?_, ?_, ?_, ?_, ?_, ?_⟩
  · simp only [build_daily_forecast]
    exact List.mem_filterMap.mpr ⟨item, hmem, by rw [hdt, Option.map_some']⟩
  · intro v hv; simp only [buildDailyEntry, hv]
  · intro hv; simp only [buildDailyEntry, hv]
  · intro v hv; simp only [buildDailyEntry, hv]
  · intro hv; simp only [buildDailyEntry, hv]
  · intro v hv; simp only [buildDailyEntry, hv]
  · intro hv; simp only [buildDailyEntry, hv]
  · intro v hv; simp only [buildDailyEntry, hv]
  · intro hv; simp only [buildDailyEntry, hv]
  · intro v hv; simp only [buildDailyEntry, hv]
  · intro hv; simp only [buildDailyEntry, hv]
  · intro raw i c hraw hi hc
    simp only [buildDailyEntry, daily_condition, hraw, hi, hc]
  · intro hv; simp only [buildDailyEntry, daily_condition, hv]
  · intro high low hlk; simp only [buildDailyEntry, hlk]
  · intro hlk; simp only [buildDailyEntry, hlk]
  · intro high low hlk; simp only [buildDailyEntry, hlk]
  · intro hlk; simp only [buildDailyEntry, hlk]
  · intro e2 he2
    simp only [update_cached_daily_conditions, List.mem_map] at he2
    obtain ⟨entry, hmem2, heq⟩ := he2
    subst heq
    cases hlk : lookupDay (derive_daily_temperatures st)
        (localDay st.tz_offset entry.datetime) with
    | none => simp [hlk]
    | some pr =>
      obtain ⟨high, low⟩ := pr
      cases high <;> cases low <;> simp [hlk]

theorem daily_fetched_precedence_witness :
    buildDailyEntry cexSt cexParsed (derive_daily_temperatures cexSt)
        {date := some 0, value := some (.num 30)} 0 ∈
      build_daily_forecast cexSt cexParsed ∧
    (buildDailyEntry cexSt cexParsed (derive_daily_temperatures cexSt)
        {date := some 0, value := some (.num 30)} 0).precipitation =
      (sum_hourly_values cexSt "precip_1h:mm" 0 (0 + 86400)).map JValue.num := by
  have h := daily_fetched_precedence cexSt cexParsed
    {date := some 0, value := some (.num 30)} 0
    (buildDailyEntry cexSt cexParsed (derive_daily_temperatures cexSt)
      {date := some 0, value := some (.num 30)} 0)
    (by decide) (by decide) rfl
  exact ⟨h.1, h.2.2.1 (by decide)⟩

/-- C8: `update_credentials` with credentials differing from the stored pair
returns `true`, replaces the stored username and password and clears the
rate-limit cool-down while leaving every other field — in particular the
cached daily forecast and the next-daily-fetch timestamp — unchanged; with
the identical pair it returns `false` and changes no state at all. -/
theorem update_credentials_spec (st : CoordState) (u p : String) :
    (¬(u = st.username ∧ p = st.password) →
        update_credentials st u p =
          ({st with username := u, password := p, rate_limit_reset := none},
           true)) ∧
    ((u = st.username ∧ p = st.password) →
        update_credentials st u p = (st, false)) ∧
    ((update_credentials st u p).1.daily_data = st.daily_data ∧
     (update_credentials st u p).1.next_daily_fetch = st.next_daily_fetch) := by
  refine ⟨?_, ?_, ?_⟩
  · intro h
    simp only [update_credentials, if_neg h]
  · intro h
    simp only [update_credentials, if_pos h]
  · by_cases h : u = st.username ∧ p = st.password <;>
      simp [update_credentials, h]

theorem update_credentials_spec_witness :
    update_credentials
        { username := "alice", password := "old", tz_offset := 0,
          plan_type := .basic, rate_limit_reset := some 99,
          daily_data := [cexCachedEntry], next_daily_fetch := some 7,
          hourly_symbol_entries := [], latest_hourly_parsed := [],
          daily_fetch_hours := some BASIC_DAILY_FETCH_HOURS }
        "alice" "new" =
      ({ username := "alice", password := "new", tz_offset := 0,
         plan_type := .basic, rate_limit_reset := none,
         daily_data := [cexCachedEntry], next_daily_fetch := some 7,
         hourly_symbol_entries := [], latest_hourly_parsed := [],
         daily_fetch_hours := some BASIC_DAILY_FETCH_HOURS }, true) ∧
    update_credentials
        { username := "alice", password := "old", tz_offset := 0,
          plan_type := .basic, rate_limit_reset := some 99,
          daily_data := [cexCachedEntry], next_daily_fetch := some 7,
          hourly_symbol_entries := [], latest_hourly_parsed := [],
          daily_fetch_hours := some BASIC_DAILY_FETCH_HOURS }
        "alice" "old" =
      ({ username := "alice", password := "old", tz_offset := 0,
         plan_type := .basic, rate_limit_reset := some 99,
         daily_data := [cexCachedEntry], next_daily_fetch := some 7,
         hourly_symbol_entries := [], latest_hourly_parsed := [],
         daily_fetch_hours := some BASIC_DAILY_FETCH_HOURS }, false) := by
  constructor
  · exact (update_credentials_spec _ "alice" "new").1 (by decide)
  · exact (update_credentials_spec _ "alice" "old").2.1 (by decide)

/-- C9: the (spec-modelled) `updatePlanType(tier)` operation returns whether
the tier changed, and a change resets the cached daily forecast and the
scheduled next-daily-fetch timestamp and clears the rate-limit cool-down. -/
theorem update_plan_type_spec (st : CoordState) (tier : PlanTier) :
    (tier ≠ st.plan_type →
        (update_plan_type st tier).2 = true ∧
        (update_plan_type st tier).1.daily_data = [] ∧
        (update_plan_type st tier).1.next_daily_fetch = none ∧
        (update_plan_type st tier).1.rate_limit_reset = none ∧
        (update_plan_type st tier).1.plan_type = tier) ∧
    (tier = st.plan_type → update_plan_type st tier = (st, false)) := by
  constructor
  · intro h
    simp [update_plan_type, h]
  · intro h
    simp [update_plan_type, h]

theorem update_plan_type_spec_witness :
    (update_plan_type
        { username := "", password := "", tz_offset := 0,
          plan_type := .paidTrial, rate_limit_reset := some 99,
          daily_data := [cexCachedEntry], next_daily_fetch := some 7,
          hourly_symbol_entries := [], latest_hourly_parsed := [],
          daily_fetch_hours := none } .basic).2 = true ∧
    (update_plan_type
        { username := "", password := "", tz_offset := 0,
          plan_type := .paidTrial, rate_limit_reset := some 99,
          daily_data := [cexCachedEntry], next_daily_fetch := some 7,
          hourly_symbol_entries := [], latest_hourly_parsed := [],
          daily_fetch_hours := none } .basic).1.daily_data = [] := by
  have h := (update_plan_type_spec
    { username := "", password := "", tz_offset := 0,
      plan_type := .paidTrial, rate_limit_reset := some 99,
      daily_data := [cexCachedEntry], next_daily_fetch := some 7,
      hourly_symbol_entries := [], latest_hourly_parsed := [],
      daily_fetch_hours := none } .basic).1 (by decide)
  exact ⟨h.1, h.2.1⟩

theorem chunkParameters_hourly :
    chunkParameters HOURLY_PARAMETERS = [HOURLY_PARAMETERS] := by decide

theorem chunkParameters_daily :
    chunkParameters DAILY_PARAMETERS = [DAILY_PARAMETERS] := by decide

theorem calculate_next_fetch_spec (now : Int) :
    (∃ h ∈ BASIC_DAILY_FETCH_HOURS,
        calculate_next_daily_fetch BASIC_DAILY_FETCH_HOURS now
          = replaceHour now h ∧
        now < replaceHour now h ∧
        ∀ h2 ∈ BASIC_DAILY_FETCH_HOURS, now < replaceHour now h2 → h ≤ h2) ∨
    ((∀ h2 ∈ BASIC_DAILY_FETCH_HOURS, replaceHour now h2 ≤ now) ∧
        calculate_next_daily_fetch BASIC_DAILY_FETCH_HOURS now
          = replaceHour (now + 86400) 3) := by
  have hsort : List.insertionSort (fun a b => a ≤ b) BASIC_DAILY_FETCH_HOURS
      = [3, 9, 15, 21] := by decide
  have hcalc : calculate_next_daily_fetch BASIC_DAILY_FETCH_HOURS now =
      (match List.find? (fun h => decide (now < replaceHour now h))
          [3, 9, 15, 21] with
       | some h => replaceHour now h
       | none => replaceHour (now + 86400) 3) := by
    unfold calculate_next_daily_fetch
    rw [hsort]
    rfl
  rw [hcalc]
  by_cases h3 : now < replaceHour now 3
  · rw [List.find?_cons_of_pos _ (by simpa using h3)]
    left
    refine ⟨3, by decide, rfl, h3, ?_⟩
    intro h2 hmem hlt
    simp only [BASIC_DAILY_FETCH_HOURS] at hmem
    fin_cases hmem <;> omega
  · rw [List.find?_cons_of_neg _ (by simpa using h3)]
    by_cases h9 : now < replaceHour now 9
    · rw [List.find?_cons_of_pos _ (by simpa using h9)]
      left
      refine ⟨9, by decide, rfl, h9, ?_⟩
      intro h2 hmem hlt
      simp only [BASIC_DAILY_FETCH_HOURS] at hmem
      fin_cases hmem
      · exact absurd hlt h3
      all_goals omega
    · rw [List.find?_cons_of_neg _ (by simpa using h9)]
      by_cases h15 : now < replaceHour now 15
      · rw [List.find?_cons_of_pos _ (by simpa using h15)]
        left
        refine ⟨15, by decide, rfl, h15, ?_⟩
        intro h2 hmem hlt
        simp only [BASIC_DAILY_FETCH_HOURS] at hmem
        fin_cases hmem
        · exact absurd hlt h3
        · exact absurd hlt h9
        all_goals omega
      · rw [List.find?_cons_of_neg _ (by simpa using h15)]
        by_cases h21 : now < replaceHour now 21
        · rw [List.find?_cons_of_pos _ (by simpa using h21)]
          left
          refine ⟨21, by decide, rfl, h21, ?_⟩
          intro h2 hmem hlt
          simp only [BASIC_DAILY_FETCH_HOURS] at hmem
          fin_cases hmem
          · exact absurd hlt h3
          · exact absurd hlt h9
          · exact absurd hlt h15
          · omega
        · rw [List.find?_cons_of_neg _ (by simpa using h21)]
          right
          constructor
          · intro h2 hmem
            simp only [BASIC_DAILY_FETCH_HOURS] at hmem
            fin_cases hmem <;> omega
          · rfl

theorem calculate_next_fetch_spec_witness :
    (∃ h ∈ BASIC_DAILY_FETCH_HOURS,
        calculate_next_daily_fetch BASIC_DAILY_FETCH_HOURS 54300
          = replaceHour 54300 h ∧
        54300 < replaceHour 54300 h ∧
        ∀ h2 ∈ BASIC_DAILY_FETCH_HOURS, 54300 < replaceHour 54300 h2 → h ≤ h2) ∨
    ((∀ h2 ∈ BASIC_DAILY_FETCH_HOURS, replaceHour 54300 h2 ≤ 54300) ∧
        calculate_next_daily_fetch BASIC_DAILY_FETCH_HOURS 54300
          = replaceHour (54300 + 86400) 3) :=
  calculate_next_fetch_spec 54300

/-- C3: on a Basic-tier refresh the daily cache is reused — with no daily
HTTP request but with conditions and high/low temperatures re-derived from
the latest hourly series — exactly when cached daily data exists, a
next-daily-fetch time is recorded and the local time is strictly before it;
otherwise a daily fetch is performed and the next-daily-fetch time is
recomputed as the smallest configured hour of {3, 9, 15, 21} strictly
greater than now, rolling to the smallest hour of the next day if none
remains today. -/
theorem daily_cache_schedule (oracle : Nat → HttpResult)
    (nowUtc nowLocal : Int) (st : CoordState) (k : Nat)
    (hhours : st.daily_fetch_hours = some BASIC_DAILY_FETCH_HOURS) :
    ((st.daily_data ≠ [] ∧
        ∃ n, st.next_daily_fetch = some n ∧ nowLocal < n) →
      ensureDaily oracle nowUtc nowLocal st k =
        .ok ({st with daily_data := update_cached_daily_conditions st},
             update_cached_daily_conditions st, k)) ∧
    (¬(st.daily_data ≠ [] ∧
        ∃ n, st.next_daily_fetch = some n ∧ nowLocal < n) →
      ∀ body, oracle k = .ok body →
      ensureDaily oracle nowUtc nowLocal st k =
        .ok ({st with
                daily_data := build_daily_forecast st body
                next_daily_fetch := some (calculate_next_daily_fetch
                  BASIC_DAILY_FETCH_HOURS nowLocal)},
             build_daily_forecast st body, k + 1)) ∧
    ((∃ h ∈ BASIC_DAILY_FETCH_HOURS,
        calculate_next_daily_fetch BASIC_DAILY_FETCH_HOURS nowLocal
          = replaceHour nowLocal h ∧
        nowLocal < replaceHour nowLocal h ∧
        ∀ h2 ∈ BASIC_DAILY_FETCH_HOURS,
          nowLocal < replaceHour nowLocal h2 → h ≤ h2) ∨
     ((∀ h2 ∈ BASIC_DAILY_FETCH_HOURS, replaceHour nowLocal h2 ≤ nowLocal) ∧
        calculate_next_daily_fetch BASIC_DAILY_FETCH_HOURS nowLocal
          = replaceHour (nowLocal + 86400) 3)) := by
  refine ⟨?_, ?_, calculate_next_fetch_spec nowLocal⟩
  · rintro ⟨hdata, n, hnext, hlt⟩
    have hempty : st.daily_data.isEmpty = false := by
      simpa [List.isEmpty_iff] using hdata
    have hdec : decide (n ≤ nowLocal) = false := by
      simp only [decide_eq_false_iff_not]
      omega
    simp only [ensureDaily, hhours, hempty, hnext, hdec, Bool.false_or,
      Bool.or_self, if_neg, Bool.false_eq_true, not_false_eq_true]
  · intro hnr body hbody
    have hstale : (st.daily_data.isEmpty ||
        match st.next_daily_fetch with
        | none => true
        | some n => decide (n ≤ nowLocal)) = true := by
      by_cases hd : st.daily_data = []
      · simp [hd]
      · cases hn : st.next_daily_fetch with
        | none => simp
        | some n =>
          have hle : n ≤ nowLocal := by
            by_contra hlt
            exact hnr ⟨hd, n, hn, by omega⟩
          simp [hle]
    simp only [ensureDaily, hhours, hstale, if_pos, fetchDaily,
      chunkParameters_daily, fetchParameters, hbody, List.append_nil]

/-- A Basic-tier state with a cached daily list and next fetch at 15:00
local (54000 s). -/
def reuseSt : CoordState :=
  { username := "", password := "", tz_offset := 0, plan_type := .basic,
    rate_limit_reset := none, daily_data := [cexCachedEntry],
    next_daily_fetch := some 54000, hourly_symbol_entries := [],
    latest_hourly_parsed := [],
    daily_fetch_hours := some BASIC_DAILY_FETCH_HOURS }

theorem daily_cache_schedule_witness :
    ensureDaily (fun _ => .ok []) 0 36000 reuseSt 0 =
      .ok ({reuseSt with daily_data := update_cached_daily_conditions reuseSt},
           update_cached_daily_conditions reuseSt, 0) ∧
    ensureDaily (fun _ => .ok []) 0 54300 reuseSt 0 =
      .ok ({reuseSt with
              daily_data := build_daily_forecast reuseSt []
              next_daily_fetch := some (calculate_next_daily_fetch
                BASIC_DAILY_FETCH_HOURS 54300)},
           build_daily_forecast reuseSt [], 0 + 1) := by
  constructor
  · exact (daily_cache_schedule (fun _ => .ok []) 0 36000 reuseSt 0 rfl).1
      ⟨by decide, 54000, rfl, by decide⟩
  · refine (daily_cache_schedule (fun _ => .ok []) 0 54300 reuseSt 0 rfl).2.1
      ?_ [] rfl
    rintro ⟨-, n, hn, hlt⟩
    have hn2 : n = 54000 := by
      have := hn.symm
      simp only [reuseSt] at this
      exact Option.some.inj this
    omega

theorem fetchParameters_ok (oracle : Nat → HttpResult) (nowUtc : Int) :
    ∀ (chunks : List (List String)) (st : CoordState) (k : Nat) (acc : Parsed)
      (st' : CoordState) (p : Parsed) (k' : Nat),
    fetchParameters oracle nowUtc st k chunks acc = .ok (st', p, k') →
    st' = st ∧ k' = k + chunks.length := by
  intro chunks
  induction chunks with
  | nil =>
    intro st k acc st' p k' h
    simp only [fetchParameters, Except.ok.injEq, Prod.mk.injEq] at h
    obtain ⟨h1, _, h3⟩ := h
    exact ⟨h1.symm, by simp [h3.symm]⟩
  | cons c rest ih =>
    intro st k acc st' p k' h
    cases ho : oracle k with
    | ok body =>
      simp only [fetchParameters, ho] at h
      obtain ⟨h1, h2⟩ := ih st (k + 1) (body ++ acc) st' p k' h
      exact ⟨h1, by simp [h2]; omega⟩
    | status429 => simp [fetchParameters, ho] at h
    | otherStatus => simp [fetchParameters, ho] at h
    | netError => simp [fetchParameters, ho] at h

theorem fetchParameters_error (oracle : Nat → HttpResult) (nowUtc : Int) :
    ∀ (chunks : List (List String)) (st : CoordState) (k : Nat) (acc : Parsed)
      (st' : CoordState) (e : FetchErr) (k' : Nat),
    fetchParameters oracle nowUtc st k chunks acc = .error (st', e, k') →
    k < k' ∧
    (st'.rate_limit_reset = st.rate_limit_reset ∨
     st'.rate_limit_reset = some (nowUtc + 3600)) ∧
    e ≠ .internalError := by
  intro chunks
  induction chunks with
  | nil =>
    intro st k acc st' e k' h
    simp [fetchParameters] at h
  | cons c rest ih =>
    intro st k acc st' e k' h
    cases ho : oracle k with
    | ok body =>
      simp only [fetchParameters, ho] at h
      obtain ⟨h1, h2, h3⟩ := ih st (k + 1) (body ++ acc) st' e k' h
      exact ⟨by omega, h2, h3⟩
    | status429 =>
      simp only [fetchParameters, ho, Except.error.injEq, Prod.mk.injEq] at h
      obtain ⟨h1, h2, h3⟩ := h
      subst h1; subst h2
      exact ⟨by omega, Or.inr rfl, by simp⟩
    | otherStatus =>
      simp only [fetchParameters, ho, Except.error.injEq, Prod.mk.injEq] at h
      obtain ⟨h1, h2, h3⟩ := h
      subst h1; subst h2
      exact ⟨by omega, Or.inl rfl, by simp⟩
    | netError =>
      simp only [fetchParameters, ho, Except.error.injEq, Prod.mk.injEq] at h
      obtain ⟨h1, h2, h3⟩ := h
      subst h1; subst h2
      exact ⟨by omega, Or.inl rfl, by simp⟩

theorem fetchHourly_ok (oracle : Nat → HttpResult) (nowUtc nowHour : Int)
    (st : CoordState) (k : Nat) (st' : CoordState) (c : CurrentSnapshot)
    (hl : List HourlyEntry) (k' : Nat)
    (h : fetchHourly oracle nowUtc nowHour st k = .ok (st', c, hl, k')) :
    st'.rate_limit_reset = st.rate_limit_reset ∧ k' = k + 1 := by
  rw [fetchHourly, chunkParameters_hourly] at h
  cases hfp : fetchParameters oracle nowUtc st k [HOURLY_PARAMETERS] [] with
  | error trip => rw [hfp] at h; exact Except.noConfusion h
  | ok trip =>
    obtain ⟨st1, parsed, k1⟩ := trip
    obtain ⟨hst1, hk1⟩ := fetchParameters_ok oracle nowUtc _ st k [] st1 parsed k1 hfp
    simp only [List.length_cons, List.length_nil] at hk1
    rw [hfp] at h
    dsimp only at h
    cases hbc : build_current parsed nowHour with
    | none => rw [hbc] at h; exact Except.noConfusion h
    | some current =>
      cases hbh : build_hourly_forecast parsed with
      | none => rw [hbc, hbh] at h; exact Except.noConfusion h
      | some hourly =>
        rw [hbc, hbh] at h
        simp only [Except.ok.injEq, Prod.mk.injEq] at h
        obtain ⟨hst', -, -, hk'⟩ := h
        subst hst1
        constructor
        · rw [← hst']
          by_cases hd : st1.daily_data.isEmpty = true <;> simp [hd]
        · omega

theorem fetchHourly_error (oracle : Nat → HttpResult) (nowUtc nowHour : Int)
    (st : CoordState) (k : Nat) (st' : CoordState) (e : FetchErr) (k' : Nat)
    (h : fetchHourly oracle nowUtc nowHour st k = .error (st', e, k')) :
    k < k' ∧
    (st'.rate_limit_reset = st.rate_limit_reset ∨
     st'.rate_limit_reset = some (nowUtc + 3600)) := by
  rw [fetchHourly, chunkParameters_hourly] at h
  cases hfp : fetchParameters oracle nowUtc st k [HOURLY_PARAMETERS] [] with
  | error trip =>
    rw [hfp] at h
    cases h
    obtain ⟨h1, h2, -⟩ :=
      fetchParameters_error oracle nowUtc _ st k [] st' e k' hfp
    exact ⟨h1, h2⟩
  | ok trip =>
    obtain ⟨st1, parsed, k1⟩ := trip
    obtain ⟨hst1, hk1⟩ := fetchParameters_ok oracle nowUtc _ st k [] st1 parsed k1 hfp
    simp only [List.length_cons, List.length_nil] at hk1
    rw [hfp] at h
    dsimp only at h
    cases hbc : build_current parsed nowHour with
    | none =>
      rw [hbc] at h
      simp only [Except.error.injEq, Prod.mk.injEq] at h
      obtain ⟨h1, -, h3⟩ := h
      subst hst1
      refine ⟨by omega, Or.inl ?_⟩
      rw [← h1]
    | some current =>
      cases hbh : build_hourly_forecast parsed with
      | none =>
        rw [hbc, hbh] at h
        simp only [Except.error.injEq, Prod.mk.injEq] at h
        obtain ⟨h1, -, h3⟩ := h
        subst hst1
        refine ⟨by omega, Or.inl ?_⟩
        rw [← h1]
      | some hourly =>
        rw [hbc, hbh] at h
        exact Except.noConfusion h

theorem fetchDaily_ok (oracle : Nat → HttpResult) (nowUtc : Int)
    (st : CoordState) (k : Nat) (st' : CoordState) (d : List DailyEntry)
    (k' : Nat)
    (h : fetchDaily oracle nowUtc st k = .ok (st', d, k')) :
    st' = st ∧ k' = k + 1 := by
  rw [fetchDaily, chunkParameters_daily] at h
  cases hfp : fetchParameters oracle nowUtc st k [DAILY_PARAMETERS] [] with
  | error trip => rw [hfp] at h; exact Except.noConfusion h
  | ok trip =>
    obtain ⟨st1, parsed, k1⟩ := trip
    obtain ⟨hst1, hk1⟩ := fetchParameters_ok oracle nowUtc _ st k [] st1 parsed k1 hfp
    simp only [List.length_cons, List.length_nil] at hk1
    rw [hfp] at h
    simp only [Except.ok.injEq, Prod.mk.injEq] at h
    obtain ⟨h1, -, h3⟩ := h
    exact ⟨h1.symm.trans hst1, by omega⟩

theorem fetchDaily_error (oracle : Nat → HttpResult) (nowUtc : Int)
    (st : CoordState) (k : Nat) (st' : CoordState) (e : FetchErr) (k' : Nat)
    (h : fetchDaily oracle nowUtc st k = .error (st', e, k')) :
    k < k' ∧
    (st'.rate_limit_reset = st.rate_limit_reset ∨
     st'.rate_limit_reset = some (nowUtc + 3600)) := by
  rw [fetchDaily, chunkParameters_daily] at h
  cases hfp : fetchParameters oracle nowUtc st k [DAILY_PARAMETERS] [] with
  | error trip =>
    rw [hfp] at h
    cases h
    obtain ⟨h1, h2, -⟩ :=
      fetchParameters_error oracle nowUtc _ st k [] st' e k' hfp
    exact ⟨h1, h2⟩
  | ok trip =>
    rw [hfp] at h
    exact Except.noConfusion h

theorem ensureDaily_ok (oracle : Nat → HttpResult) (nowUtc nowLocal : Int)
    (st : CoordState) (k : Nat) (st' : CoordState) (d : List DailyEntry)
    (k' : Nat)
    (h : ensureDaily oracle nowUtc nowLocal st k = .ok (st', d, k')) :
    st'.rate_limit_reset = st.rate_limit_reset ∧ k ≤ k' := by
  unfold ensureDaily at h
  cases hfh : st.daily_fetch_hours with
  | none =>
    rw [hfh] at h
    dsimp only at h
    cases hfd : fetchDaily oracle nowUtc st k with
    | error trip => rw [hfd] at h; exact Except.noConfusion h
    | ok trip =>
      obtain ⟨st1, d1, k1⟩ := trip
      obtain ⟨hst1, hk1⟩ := fetchDaily_ok oracle nowUtc st k st1 d1 k1 hfd
      rw [hfd] at h
      simp only [Except.ok.injEq, Prod.mk.injEq] at h
      obtain ⟨h1, -, h3⟩ := h
      subst hst1
      constructor
      · rw [← h1]
      · omega
  | some hours =>
    rw [hfh] at h
    dsimp only at h
    by_cases hstale : (st.daily_data.isEmpty ||
        match st.next_daily_fetch with
        | none => true
        | some n => decide (n ≤ nowLocal)) = true
    · rw [if_pos hstale] at h
      cases hfd : fetchDaily oracle nowUtc st k with
      | error trip => rw [hfd] at h; exact Except.noConfusion h
      | ok trip =>
        obtain ⟨st1, d1, k1⟩ := trip
        obtain ⟨hst1, hk1⟩ := fetchDaily_ok oracle nowUtc st k st1 d1 k1 hfd
        rw [hfd] at h
        simp only [Except.ok.injEq, Prod.mk.injEq] at h
        obtain ⟨h1, -, h3⟩ := h
        subst hst1
        constructor
        · rw [← h1]
        · omega
    · rw [if_neg hstale] at h
      simp only [Except.ok.injEq, Prod.mk.injEq] at h
      obtain ⟨h1, -, h3⟩ := h
      constructor
      · rw [← h1]
      · omega

theorem ensureDaily_error (oracle : Nat → HttpResult) (nowUtc nowLocal : Int)
    (st : CoordState) (k : Nat) (st' : CoordState) (e : FetchErr) (k' : Nat)
    (h : ensureDaily oracle nowUtc nowLocal st k = .error (st', e, k')) :
    k < k' ∧
    (st'.rate_limit_reset = st.rate_limit_reset ∨
     st'.rate_limit_reset = some (nowUtc + 3600)) := by
  unfold ensureDaily at h
  cases hfh : st.daily_fetch_hours with
  | none =>
    rw [hfh] at h
    dsimp only at h
    cases hfd : fetchDaily oracle nowUtc st k with
    | error trip =>
      rw [hfd] at h
      cases h
      exact fetchDaily_error oracle nowUtc st k st' e k' hfd
    | ok trip =>
      obtain ⟨st1, d1, k1⟩ := trip
      rw [hfd] at h
      exact Except.noConfusion h
  | some hours =>
    rw [hfh] at h
    dsimp only at h
    by_cases hstale : (st.daily_data.isEmpty ||
        match st.next_daily_fetch with
        | none => true
        | some n => decide (n ≤ nowLocal)) = true
    · rw [if_pos hstale] at h
      cases hfd : fetchDaily oracle nowUtc st k with
      | error trip =>
        rw [hfd] at h
        cases h
        exact fetchDaily_error oracle nowUtc st k st' e k' hfd
      | ok trip =>
        obtain ⟨st1, d1, k1⟩ := trip
        rw [hfd] at h
        exact Except.noConfusion h
    · rw [if_neg hstale] at h
      exact Except.noConfusion h

theorem runUpdateBody_facts (st : CoordState) (nowUtc nowLocal : Int)
    (oracle : Nat → HttpResult) :
    (runUpdateBody st nowUtc nowLocal oracle).2.1 ≠ .failedRateLimitWait ∧
    1 ≤ (runUpdateBody st nowUtc nowLocal oracle).2.2 ∧
    (∀ c hl d,
        (runUpdateBody st nowUtc nowLocal oracle).2.1 = .success c hl d →
        (runUpdateBody st nowUtc nowLocal oracle).1.rate_limit_reset = none) ∧
    ((∀ c hl d,
        (runUpdateBody st nowUtc nowLocal oracle).2.1 ≠ .success c hl d) →
        (runUpdateBody st nowUtc nowLocal oracle).1.rate_limit_reset
            = st.rate_limit_reset ∨
        (runUpdateBody st nowUtc nowLocal oracle).1.rate_limit_reset
            = some (nowUtc + 3600)) := by
  unfold runUpdateBody
  dsimp only
  cases hfh : fetchHourly oracle nowUtc (nowLocal - nowLocal % 3600) st 0 with
  | error trip =>
    obtain ⟨st1, e, k⟩ := trip
    obtain ⟨hk, hres⟩ :=
      fetchHourly_error oracle nowUtc (nowLocal - nowLocal % 3600) st 0 st1 e k hfh
    dsimp only
    refine ⟨?_, by omega, ?_, ?_⟩
    · cases e <;> simp [errOutcome]
    · intro c hl d hc
      cases e <;> simp [errOutcome] at hc
    · intro _
      exact hres
  | ok quad =>
    obtain ⟨st1, c0, hl0, k⟩ := quad
    obtain ⟨hres1, hk1⟩ :=
      fetchHourly_ok oracle nowUtc (nowLocal - nowLocal % 3600) st 0 st1 c0 hl0 k hfh
    dsimp only
    cases hed : ensureDaily oracle nowUtc nowLocal st1 k with
    | error trip2 =>
      obtain ⟨st2, e2, k2⟩ := trip2
      obtain ⟨hk2, hres2⟩ :=
        ensureDaily_error oracle nowUtc nowLocal st1 k st2 e2 k2 hed
      dsimp only
      refine ⟨?_, by omega, ?_, ?_⟩
      · cases e2 <;> simp [errOutcome]
      · intro c hl d hc
        cases e2 <;> simp [errOutcome] at hc
      · intro _
        rcases hres2 with h2 | h2
        · rw [h2, hres1]
          exact Or.inl rfl
        · exact Or.inr h2
    | ok trip2 =>
      obtain ⟨st2, d2, k2⟩ := trip2
      obtain ⟨hres2, hk2⟩ :=
        ensureDaily_ok oracle nowUtc nowLocal st1 k st2 d2 k2 hed
      dsimp only
      refine ⟨by simp, by omega, ?_, ?_⟩
      · intro c hl d hc
        rfl
      · intro hns
        exact absurd rfl (hns c0 hl0 d2)

theorem fetchParameters_rateLimited (oracle : Nat → HttpResult)
    (nowUtc : Int) :
    ∀ (chunks : List (List String)) (st : CoordState) (k : Nat) (acc : Parsed)
      (st' : CoordState) (k' : Nat),
    fetchParameters oracle nowUtc st k chunks acc
        = .error (st', .rateLimited, k') →
    st'.rate_limit_reset = some (nowUtc + 3600) := by
  intro chunks
  induction chunks with
  | nil =>
    intro st k acc st' k' h
    simp [fetchParameters] at h
  | cons c rest ih =>
    intro st k acc st' k' h
    cases ho : oracle k with
    | ok body =>
      simp only [fetchParameters, ho] at h
      exact ih st (k + 1) (body ++ acc) st' k' h
    | status429 =>
      simp only [fetchParameters, ho, Except.error.injEq, Prod.mk.injEq] at h
      obtain ⟨h1, -, -⟩ := h
      rw [← h1]
    | otherStatus => simp [fetchParameters, ho] at h
    | netError => simp [fetchParameters, ho] at h

/-- C2: an HTTP 429 sets the rate-limit reset to one hour from now and fails
the cycle with the distinguishable rate-limited error; every refresh
attempted while the reset is set and still in the future fails immediately
with the retryable rate-limited failure and issues zero HTTP requests; a
refresh attempted after the reset has passed proceeds (it is not the
fast-fail outcome, and at least one request is issued); and the reset is
cleared exactly by a fully successful cycle — a failing cycle leaves it
unchanged or sets it to one hour from now. -/
theorem rate_limit_cycle (st : CoordState) (nowUtc nowLocal : Int)
    (oracle : Nat → HttpResult) :
    (∀ r, st.rate_limit_reset = some r → nowUtc < r →
        runUpdate st nowUtc nowLocal oracle = (st, .failedRateLimitWait, 0)) ∧
    ((st.rate_limit_reset = none ∨
        ∃ r, st.rate_limit_reset = some r ∧ r ≤ nowUtc) →
      oracle 0 = .status429 →
      runUpdate st nowUtc nowLocal oracle =
        ({st with rate_limit_reset := some (nowUtc + 3600)},
         .failedRateLimited, 1)) ∧
    (∀ r, st.rate_limit_reset = some r → r ≤ nowUtc →
        ((runUpdate st nowUtc nowLocal oracle).2.1 ≠ .failedRateLimitWait ∧
         1 ≤ (runUpdate st nowUtc nowLocal oracle).2.2)) ∧
    (∀ c hl d,
        (runUpdate st nowUtc nowLocal oracle).2.1 = .success c hl d →
        (runUpdate st nowUtc nowLocal oracle).1.rate_limit_reset = none) ∧
    ((∀ c hl d,
        (runUpdate st nowUtc nowLocal oracle).2.1 ≠ .success c hl d) →
        (runUpdate st nowUtc nowLocal oracle).1.rate_limit_reset
            = st.rate_limit_reset ∨
        (runUpdate st nowUtc nowLocal oracle).1.rate_limit_reset
            = some (nowUtc + 3600)) ∧
    (∀ (chunks : List (List String)) (st0 : CoordState) (k : Nat)
        (acc : Parsed) (st' : CoordState) (k' : Nat),
        fetchParameters oracle nowUtc st0 k chunks acc
            = .error (st', .rateLimited, k') →
        st'.rate_limit_reset = some (nowUtc + 3600)) := by
  refine ⟨?_, ?_, ?_, ?_, ?_, ?_⟩
  · intro r hr hlt
    simp only [runUpdate, hr]
    rw [if_pos hlt]
  · intro hg h429
    have hbody : runUpdate st nowUtc nowLocal oracle
        = runUpdateBody st nowUtc nowLocal oracle := by
      rcases hg with hnone | ⟨r, hr, hle⟩
      · simp only [runUpdate, hnone]
      · simp only [runUpdate, hr]
        rw [if_neg (by omega)]
    rw [hbody]
    simp only [runUpdateBody, fetchHourly, chunkParameters_hourly,
      fetchParameters, h429, errOutcome]
  · intro r hr hle
    have hbody : runUpdate st nowUtc nowLocal oracle
        = runUpdateBody st nowUtc nowLocal oracle := by
      simp only [runUpdate, hr]
      rw [if_neg (by omega)]
    rw [hbody]
    exact ⟨(runUpdateBody_facts st nowUtc nowLocal oracle).1,
           (runUpdateBody_facts st nowUtc nowLocal oracle).2.1⟩
  · cases hr : st.rate_limit_reset with
    | none =>
      have hbody : runUpdate st nowUtc nowLocal oracle
          = runUpdateBody st nowUtc nowLocal oracle := by
        simp only [runUpdate, hr]
      rw [hbody]
      exact (runUpdateBody_facts st nowUtc nowLocal oracle).2.2.1
    | some r =>
      by_cases hlt : nowUtc < r
      · have heq : runUpdate st nowUtc nowLocal oracle
            = (st, .failedRateLimitWait, 0) := by
          simp only [runUpdate, hr]
          rw [if_pos hlt]
        rw [heq]
        intro c hl d hc
        exact Outcome.noConfusion hc
      · have hbody : runUpdate st nowUtc nowLocal oracle
            = runUpdateBody st nowUtc nowLocal oracle := by
          simp only [runUpdate, hr]
          rw [if_neg hlt]
        rw [hbody]
        exact (runUpdateBody_facts st nowUtc nowLocal oracle).2.2.1
  · cases hr : st.rate_limit_reset with
    | none =>
      have hbody : runUpdate st nowUtc nowLocal oracle
          = runUpdateBody st nowUtc nowLocal oracle := by
        simp only [runUpdate, hr]
      rw [hbody]
      rw [← hr]
      exact (runUpdateBody_facts st nowUtc nowLocal oracle).2.2.2
    | some r =>
      by_cases hlt : nowUtc < r
      · have heq : runUpdate st nowUtc nowLocal oracle
            = (st, .failedRateLimitWait, 0) := by
          simp only [runUpdate, hr]
          rw [if_pos hlt]
        rw [heq]
        intro _
        exact Or.inl hr
      · have hbody : runUpdate st nowUtc nowLocal oracle
            = runUpdateBody st nowUtc nowLocal oracle := by
          simp only [runUpdate, hr]
          rw [if_neg hlt]
        rw [hbody]
        rw [← hr]
        exact (runUpdateBody_facts st nowUtc nowLocal oracle).2.2.2
  · intro chunks st0 k acc st' k' h
    exact fetchParameters_rateLimited oracle nowUtc chunks st0 k acc st' k' h

/-- A state whose rate-limit cool-down is set to time 100 (claim C2). -/
def rlStWait : CoordState :=
  { username := "", password := "", tz_offset := 0, plan_type := .basic,
    rate_limit_reset := some 100, daily_data := [], next_daily_fetch := none,
    hourly_symbol_entries := [], latest_hourly_parsed := [],
    daily_fetch_hours := some BASIC_DAILY_FETCH_HOURS }

/-- A state with no cool-down (claim C2). -/
def rlStReady : CoordState :=
  { username := "", password := "", tz_offset := 0, plan_type := .basic,
    rate_limit_reset := none, daily_data := [], next_daily_fetch := none,
    hourly_symbol_entries := [], latest_hourly_parsed := [],
    daily_fetch_hours := some BASIC_DAILY_FETCH_HOURS }

/-- A state whose cool-down expired at time 40 (claim C2). -/
def rlStPassed : CoordState :=
  { username := "", password := "", tz_offset := 0, plan_type := .basic,
    rate_limit_reset := some 40, daily_data := [], next_daily_fetch := none,
    hourly_symbol_entries := [], latest_hourly_parsed := [],
    daily_fetch_hours := some BASIC_DAILY_FETCH_HOURS }

theorem rate_limit_cycle_witness :
    runUpdate rlStWait 50 0 (fun _ => .status429)
      = (rlStWait, .failedRateLimitWait, 0) ∧
    runUpdate rlStReady 50 0 (fun _ => .status429)
      = ({rlStReady with rate_limit_reset := some (50 + 3600)},
         .failedRateLimited, 1) ∧
    ((runUpdate rlStPassed 50 0 (fun _ => .status429)).2.1
        ≠ .failedRateLimitWait ∧
     1 ≤ (runUpdate rlStPassed 50 0 (fun _ => .status429)).2.2) := by
  refine ⟨?_, ?_, ?_⟩
  · exact (rate_limit_cycle rlStWait 50 0 (fun _ => .status429)).1
      100 rfl (by decide)
  · exact (rate_limit_cycle rlStReady 50 0 (fun _ => .status429)).2.1
      (Or.inl rfl) rfl
  · exact (rate_limit_cycle rlStPassed 50 0 (fun _ => .status429)).2.2.1
      40 rfl (by decide)
